import Mathlib

/-!
Verification of the rendering/layout core of `todotui` (`src/cursed.py`):
the 2D geometry kernel (`Point`, `Line`, `Rect`, `Util.overlap`), the
collision/junction engine, the proportional tiling formula of the layout
tree, the per-(cell, view) state cache, and the single-active-popup
invariant.  All definitions are shallow embeddings of the Python source;
Python's unbounded integers become `Int` (or `Nat` where the source only
ever sees non-negative values).
-/

namespace Cursed

/-- 2D integer point (`Point` in `cursed.py`). Value semantics: the Python
class defines `__eq__`/`__hash__` over the coordinates. -/
structure Point where
  x : Int
  y : Int
deriving DecidableEq, Repr

/-- `Point.__getitem__`: axis 0 is x, axis 1 is y (only 0/1 occur). -/
def Point.get (p : Point) (axis : Nat) : Int :=
  if axis = 0 then p.x else p.y

/-- A line segment given by two endpoints (`Line` in `cursed.py`). -/
structure Line where
  p : Point
  q : Point
deriving DecidableEq, Repr

/-- `Line.VERTICAL` orientation tag. -/
def Line.VERTICAL : Nat := 1
/-- `Line.HORIZONTAL` orientation tag. -/
def Line.HORIZONTAL : Nat := 2
/-- `Line.ANGLED` orientation tag. -/
def Line.ANGLED : Nat := 3

/-- Junction glyphs used by `resolve_collision`. -/
def Line.UNICODE_X : String := "┼"
def Line.UNICODE_HU : String := "┴"
def Line.UNICODE_HD : String := "┬"
def Line.UNICODE_VR : String := "├"
def Line.UNICODE_VL : String := "┤"
def Line.UNICODE_TL : String := "┌"
def Line.UNICODE_BR : String := "┘"
def Line.UNICODE_TR : String := "┐"
def Line.UNICODE_BL : String := "└"

/-- `Line.vertical`: both endpoints share the x coordinate. -/
def Line.vertical (l : Line) : Bool := l.p.x == l.q.x

/-- `Line.horizontal`: both endpoints share the y coordinate. -/
def Line.horizontal (l : Line) : Bool := l.p.y == l.q.y

/-- `Line.orientation`: vertical is checked first, then horizontal. -/
def Line.orientation (l : Line) : Nat :=
  if l.vertical then Line.VERTICAL
  else if l.horizontal then Line.HORIZONTAL
  else Line.ANGLED

/-- `Line.parallel`: equality of orientations. -/
def Line.parallel (a b : Line) : Bool :=
  a.orientation == b.orientation

namespace Util

/-- `Util.order`: sort a pair into (min, max). -/
def order (p : Int × Int) : Int × Int :=
  (min p.1 p.2, max p.1 p.2)

/-- `Util.overlap` on closed integer intervals.  The source picks
`minimum` (the earlier-starting argument, first on ties) and `maximum`
(the later-ending argument, first on ties) and tests `minimum is maximum`
by object identity; the two arguments are always distinct freshly built
tuples at the call sites (`Line.project` builds a new pair), so identity
holds exactly when both selections picked the same argument, which is the
disjunction below. -/
def overlap (a b : Int × Int) : Bool × Option (Int × Int) :=
  let minimum := if a.1 ≤ b.1 then a else b
  let maximum := if a.2 ≥ b.2 then a else b
  if (a.1 ≤ b.1 ∧ a.2 ≥ b.2) ∨ (¬ a.1 ≤ b.1 ∧ ¬ a.2 ≥ b.2) then
    (true, some (if minimum = a then b else a))
  else if minimum.2 < maximum.1 then
    (false, none)
  else
    (true, some (maximum.1, minimum.2))

end Util

/-- `Line.project`: the ordered interval of the endpoints on one axis. -/
def Line.project (l : Line) (axis : Nat) : Int × Int :=
  Util.order (l.p.get axis, l.q.get axis)

/-- `Line.collision`: overlap the two axis projections; a collision needs
both.  In the source a `true` overlap always carries a segment, so the
fallthrough arms are unreachable when the flag is set. -/
def Line.collision (a b : Line) : Bool × Option ((Int × Int) × (Int × Int)) :=
  match Util.overlap (a.project 0) (b.project 0),
        Util.overlap (a.project 1) (b.project 1) with
  | (true, some sx), (true, some sy) => (true, some (sx, sy))
  | _, _ => (false, none)

/-- `Line.collisions`: all ordered pairs of distinct, non-parallel lines
with a true collision, keyed by the pair, skipping a pair whose reverse
was already recorded.  The dictionary is modelled as an insertion-ordered
association list.  The source's `a is b` (object identity) implies value
equality, and equal lines are parallel, so the identity test adds nothing
beyond the parallel test for the lists at hand. -/
def Line.collisions (lines : List Line) :
    List ((Line × Line) × ((Int × Int) × (Int × Int))) :=
  lines.foldl (fun results a =>
    lines.foldl (fun results b =>
      if a = b ∨ Line.parallel a b = true ∨ (b, a) ∈ results.map Prod.fst then
        results
      else
        match Line.collision a b with
        | (true, some segments) => results ++ [((a, b), segments)]
        | _ => results)
      results)
    []

/-- `Line.resolve_collision`: the collision of a horizontal and a vertical
line collapses to a single point; classify it against the horizontal
line's and the vertical line's endpoints, in the source's order, to pick
the junction glyph. -/
def Line.resolve_collision
    (c : (Line × Line) × ((Int × Int) × (Int × Int))) : Point × String :=
  let a := c.1.1
  let b := c.1.2
  let sx := c.2.1
  let sy := c.2.2
  let p : Point := ⟨sx.1, sy.1⟩
  let h := if a.horizontal then a else b
  let v := if a.vertical then a else b
  let r :=
    if p = h.p ∧ p = v.p then Line.UNICODE_TL
    else if p = h.p ∧ p = v.q then Line.UNICODE_BL
    else if p = h.q ∧ p = v.p then Line.UNICODE_TR
    else if p = h.q ∧ p = v.q then Line.UNICODE_BR
    else if p = h.p then Line.UNICODE_VR
    else if p = h.q then Line.UNICODE_VL
    else if p = v.p then Line.UNICODE_HD
    else if p = v.q then Line.UNICODE_HU
    else Line.UNICODE_X
  (p, r)

/-- Modelled from the spec's junction table (§4.1): ordered classification
of the collision point against the horizontal line `h` and the vertical
line `v` — both-starts gives the top-left corner, h.start with v.end the
bottom-left, h.end with v.start the top-right, both-ends the bottom-right,
h.start alone the T pointing right, h.end alone the T pointing left,
v.start alone the T pointing down, v.end alone the T pointing up, and
otherwise the full cross.  Stated for comparison with
`Line.resolve_collision`. -/
def specResolveJunction (h v : Line) (p : Point) : String :=
  if p = h.p ∧ p = v.p then Line.UNICODE_TL
  else if p = h.p ∧ p = v.q then Line.UNICODE_BL
  else if p = h.q ∧ p = v.p then Line.UNICODE_TR
  else if p = h.q ∧ p = v.q then Line.UNICODE_BR
  else if p = h.p then Line.UNICODE_VR
  else if p = h.q then Line.UNICODE_VL
  else if p = v.p then Line.UNICODE_HD
  else if p = v.q then Line.UNICODE_HU
  else Line.UNICODE_X

/-- Axis-aligned rectangle (`Rect` in `cursed.py`). -/
structure Rect where
  p : Point
  q : Point
deriving DecidableEq, Repr

/-- `Rect.__init__`: normalize the two corners into componentwise
minimum `p` and maximum `q`. -/
def Rect.init (p q : Point) : Rect :=
  ⟨⟨min p.x q.x, min p.y q.y⟩, ⟨max p.x q.x, max p.y q.y⟩⟩

/-- `Rect.__iter__`: the four corners a, b, c, d in drawing order. -/
def Rect.corners (r : Rect) : List Point :=
  [⟨r.p.x, r.p.y⟩, ⟨r.q.x, r.p.y⟩, ⟨r.q.x, r.q.y⟩, ⟨r.p.x, r.q.y⟩]

/-- `Rect.border`: the four border segments built from the corners. -/
def Rect.border (r : Rect) : List Line :=
  let a : Point := ⟨r.p.x, r.p.y⟩
  let b : Point := ⟨r.q.x, r.p.y⟩
  let c : Point := ⟨r.q.x, r.q.y⟩
  let d : Point := ⟨r.p.x, r.q.y⟩
  [Line.mk a b, Line.mk b c, Line.mk d c, Line.mk a d]

/-- `Window.__init__`: the rect of a new window at (x, y) of size
(w, h), built through the normalizing `Rect` constructor. -/
def Window.init (x y w h : Int) : Rect :=
  Rect.init ⟨x, y⟩ ⟨x + w, y + h⟩

/-- `Window.move`: sets only the corner `p`; `q` is left unchanged. -/
def Window.move (r : Rect) (x y : Int) : Rect :=
  ⟨⟨x, y⟩, r.q⟩

/-- `Window.resize`: recomputes `q` from the current `p` and the new
size; `p` is left unchanged. -/
def Window.resize (r : Rect) (w h : Int) : Rect :=
  ⟨r.p, ⟨r.p.x + w, r.p.y + h⟩⟩

/-- `LayoutNode.tile`: the size of the child at sibling index `i` among
`n` siblings sharing total extent `m` along an axis.  The source computes
`x = int(m / n)` which is floor division for the non-negative extents
that occur, then gives the remainder `m - x * n` to index 0. -/
def LayoutNode.tile (m n i : Nat) : Nat :=
  let x := m / n
  let r := m - x * n
  if i = 0 then x + r else x

/-- `LayoutNode.border_lines`: top, bottom, left and right border
segments of a node of the given width and height. -/
def LayoutNode.border_lines (width height : Int) : List Line :=
  let w := width - 1
  let h := height - 1
  [Line.mk ⟨0, 0⟩ ⟨w, 0⟩,
   Line.mk ⟨0, h⟩ ⟨w, h⟩,
   Line.mk ⟨0, 0⟩ ⟨0, h⟩,
   Line.mk ⟨w, 0⟩ ⟨w, h⟩]

/-- The per-cell view-state cache of `LayoutCell`: the `states` dict as an
insertion-ordered association list from view identity to state identity,
plus a counter modelling `View.init_state` allocating a fresh state
object. -/
structure CellStates where
  states : List (Nat × Nat)
  fresh : Nat
deriving DecidableEq, Repr

/-- `LayoutCell.__init__` leaves the cache empty (`self.states = {}`). -/
def CellStates.init : CellStates := ⟨[], 0⟩

/-- `LayoutCell.state`: look the view up; on a miss call `init_state`,
record the result and return it, on a hit return the recorded state.
Returns the state handed back, the cell's cache afterwards, and whether
`init_state` was called. -/
def LayoutCell.state (c : CellStates) (view : Nat) : Nat × CellStates × Bool :=
  match c.states.lookup view with
  | none => (c.fresh, ⟨c.states ++ [(view, c.fresh)], c.fresh + 1⟩, true)
  | some s => (s, c, false)

/-- A sequence of `LayoutCell.state` requests (as issued by `draw` and
`handle_input` through `View.state`), returning per request the view
asked for, the state handed back, and whether `init_state` ran. -/
def LayoutCell.runStates (c : CellStates) : List Nat → List (Nat × Nat × Bool)
  | [] => []
  | v :: rest =>
    let r := LayoutCell.state c v
    (v, r.1, r.2.2) :: LayoutCell.runStates r.2.1 rest

/-- The owner-slot effect of `Popup.__init__` (the owner is a `Layout` or
another `Popup`; popups are identified by ids standing for object
identity).  The occupancy check precedes the assignment, so the raise
leaves the slot untouched; the surface creation that precedes the check
does not touch the owner.  Returns the owner's popup slot after the call
and the raised error message, if any. -/
def Popup.init_slot (ownerPopup : Option Nat) (self : Nat) :
    Option Nat × Option String :=
  match ownerPopup with
  | some p => (some p, some "Parent already has an active popup")
  | none => (some self, none)

/-- `Layout.popup_set`: same check on the layout's slot, raising "Two
popups" when occupied. -/
def Layout.popup_set (popup : Option Nat) (newPopup : Nat) :
    Option Nat × Option String :=
  match popup with
  | some p => (some p, some "Two popups")
  | none => (some newPopup, none)

/-- The remainder handed to sibling index 0 is exactly `m % n`. -/
lemma tile_rem (m n : Nat) : m - m / n * n = m % n := by
  have hdm : n * (m / n) + m % n = m := Nat.div_add_mod m n
  have hc : m / n * n = n * (m / n) := Nat.mul_comm _ _
  omega

/-- C1: for a parent with `n ≥ 1` children sharing total extent `m ≥ 0`
along an axis, the sizes produced by `LayoutNode.tile` sum exactly to
`m`, every child at index `i > 0` receives `m / n` (floor), and the child
at index 0 receives `m / n` plus the remainder `m - (m / n) * n`. -/
theorem C1_tile_partition (m n : Nat) (hn : 1 ≤ n) :
    (∑ i in Finset.range n, LayoutNode.tile m n i) = m
    ∧ (∀ i, 0 < i → LayoutNode.tile m n i = m / n)
    ∧ LayoutNode.tile m n 0 = m / n + (m - m / n * n) := by
  have hdm : n * (m / n) + m % n = m := Nat.div_add_mod m n
  have hc : m / n * n = n * (m / n) := Nat.mul_comm _ _
  refine ⟨?_, ?_, ?_⟩
  · have hsum : ∀ i ∈ Finset.range n,
        LayoutNode.tile m n i
          = m / n + (if i = 0 then m - m / n * n else 0) := by
      intro i _
      by_cases h : i = 0 <;> simp [LayoutNode.tile, h]
    rw [Finset.sum_congr rfl hsum, Finset.sum_add_distrib, Finset.sum_const,
      Finset.card_range, Finset.sum_ite_eq' (Finset.range n) 0]
    have h0 : (0 : Nat) ∈ Finset.range n := Finset.mem_range.mpr (by omega)
    simp only [h0, if_true, smul_eq_mul]
    omega
  · intro i hi
    have h : i ≠ 0 := by omega
    simp [LayoutNode.tile, h]
  · simp [LayoutNode.tile]

/-- Witness for C1 at extent 5 split among 3 siblings. -/
theorem C1_tile_partition_witness :
    (∑ i in Finset.range 3, LayoutNode.tile 5 3 i) = 5
    ∧ LayoutNode.tile 5 3 1 = 1 ∧ LayoutNode.tile 5 3 0 = 3 := by
  have h := C1_tile_partition 5 3 (by decide)
  exact ⟨h.1, h.2.1 1 (by decide), h.2.2⟩

/-- C7 fails as stated: at extent 5 among 3 siblings the sizes are
(3, 1, 1), and 3 and 1 differ by 2 > 1 — the whole remainder goes to the
first sibling, not one unit to each of the first `m % n`. -/
theorem C7_counterexample :
    LayoutNode.tile 5 3 0 = 3 ∧ LayoutNode.tile 5 3 1 = 1
    ∧ ¬ (LayoutNode.tile 5 3 0 - LayoutNode.tile 5 3 1 ≤ 1) := by
  decide

/-- C7 amended: all siblings at index > 0 receive the same size, the
first sibling exceeds them by exactly `m % n`, and that excess is at most
`n - 1` (not at most 1). -/
theorem C7_tile_diff (m n : Nat) (hn : 1 ≤ n) :
    (∀ i j, 0 < i → 0 < j → LayoutNode.tile m n i = LayoutNode.tile m n j)
    ∧ LayoutNode.tile m n 0 = LayoutNode.tile m n 1 + m % n
    ∧ m % n ≤ n - 1 := by
  refine ⟨?_, ?_, ?_⟩
  · intro i j hi hj
    have hi' : i ≠ 0 := by omega
    have hj' : j ≠ 0 := by omega
    simp [LayoutNode.tile, hi', hj']
  · show m / n + (m - m / n * n) = m / n + m % n
    rw [tile_rem]
  · have h : m % n < n := Nat.mod_lt m (by omega)
    omega

/-- Witness for C7's amended statement at extent 5 among 3 siblings. -/
theorem C7_tile_diff_witness :
    LayoutNode.tile 5 3 1 = LayoutNode.tile 5 3 2
    ∧ LayoutNode.tile 5 3 0 = LayoutNode.tile 5 3 1 + 5 % 3
    ∧ 5 % 3 ≤ 2 := by
  have h := C7_tile_diff 5 3 (by decide)
  exact ⟨h.1 1 2 (by decide) (by decide), h.2.1, h.2.2⟩

/-- C4: constructing a second popup on an owner whose popup slot is
occupied raises the structural error, and the owner's slot still refers
to the original popup afterwards; `Layout.popup_set` enforces the same
invariant with its own error message. -/
theorem C4_single_popup (slot : Option Nat) (old self : Nat)
    (h : slot = some old) :
    Popup.init_slot slot self
        = (some old, some "Parent already has an active popup")
    ∧ Layout.popup_set slot self = (some old, some "Two popups") := by
  subst h
  exact ⟨rfl, rfl⟩

/-- Witness for C4: owner holding popup 7, attempted popup 3. -/
theorem C4_single_popup_witness :
    Popup.init_slot (some 7) 3
        = (some 7, some "Parent already has an active popup")
    ∧ Layout.popup_set (some 7) 3 = (some 7, some "Two popups") :=
  C4_single_popup (some 7) 7 3 rfl

/-- C5 fails as stated: `Window.move` assigns only the corner `p`, so
moving a 5×5 window at the origin to (10, 10) leaves `q = (5, 5)` and
the invariant `p ≤ q` breaks componentwise. -/
theorem C5_counterexample :
    (Window.move (Window.init 0 0 5 5) 10 10).p.x
        > (Window.move (Window.init 0 0 5 5) 10 10).q.x
    ∧ (Window.move (Window.init 0 0 5 5) 10 10).p.y
        > (Window.move (Window.init 0 0 5 5) 10 10).q.y := by
  decide

/-- C5 amended: `Rect` construction from any two corner points
normalizes to `p ≤ q` componentwise (hence so does `Window.__init__`),
and `Window.resize` with non-negative width and height re-establishes
the invariant from any rect; `Window.move`, however, assigns only `p`
and need not preserve it. -/
theorem C5_rect_normalized (a b : Point) (r : Rect) (w h : Int)
    (hw : 0 ≤ w) (hh : 0 ≤ h) :
    ((Rect.init a b).p.x ≤ (Rect.init a b).q.x
      ∧ (Rect.init a b).p.y ≤ (Rect.init a b).q.y)
    ∧ ((Window.resize r w h).p.x ≤ (Window.resize r w h).q.x
      ∧ (Window.resize r w h).p.y ≤ (Window.resize r w h).q.y) := by
  refine ⟨⟨?_, ?_⟩, ⟨?_, ?_⟩⟩ <;> simp [Rect.init, Window.resize] <;> omega

/-- Witness for C5's amended statement: corners given in reversed order,
then a 4×0 resize of a denormalized rect. -/
theorem C5_rect_normalized_witness :
    ((Rect.init ⟨5, 9⟩ ⟨2, 1⟩).p.x ≤ (Rect.init ⟨5, 9⟩ ⟨2, 1⟩).q.x
      ∧ (Rect.init ⟨5, 9⟩ ⟨2, 1⟩).p.y ≤ (Rect.init ⟨5, 9⟩ ⟨2, 1⟩).q.y)
    ∧ ((Window.resize ⟨⟨0, 0⟩, ⟨-3, -3⟩⟩ 4 0).p.x
          ≤ (Window.resize ⟨⟨0, 0⟩, ⟨-3, -3⟩⟩ 4 0).q.x
      ∧ (Window.resize ⟨⟨0, 0⟩, ⟨-3, -3⟩⟩ 4 0).p.y
          ≤ (Window.resize ⟨⟨0, 0⟩, ⟨-3, -3⟩⟩ 4 0).q.y) :=
  C5_rect_normalized ⟨5, 9⟩ ⟨2, 1⟩ ⟨⟨0, 0⟩, ⟨-3, -3⟩⟩ 4 0
    (by decide) (by decide)

/-- On well-formed intervals `Util.overlap` computes exactly the closed
intersection when the starts meet the ends, and `(false, none)`
otherwise. -/
lemma overlap_eq (a b : Int × Int) (ha : a.1 ≤ a.2) (hb : b.1 ≤ b.2) :
    Util.overlap a b =
      if max a.1 b.1 ≤ min a.2 b.2
      then (true, some (max a.1 b.1, min a.2 b.2))
      else (false, none) := by
  obtain ⟨a1, a2⟩ := a
  obtain ⟨b1, b2⟩ := b
  simp only at ha hb
  simp only [Util.overlap]
  split_ifs with h1 h2 h3 h4 h5 <;>
    simp_all [Prod.ext_iff, Prod.mk.injEq] <;> omega

/-- C2: on well-formed closed intervals, `Util.overlap` returns true iff
the later-starting interval's start is at most the earlier-ending
interval's end; under strict containment it returns the smaller
interval's bounds (the second argument when both start together); in the
overlapping case the returned segment is the intersection
`[max(starts), min(ends)]`; and disjoint intervals give
`(false, none)`. -/
theorem C2_overlap (a b : Int × Int) (ha : a.1 ≤ a.2) (hb : b.1 ≤ b.2) :
    ((Util.overlap a b).1 = true ↔ max a.1 b.1 ≤ min a.2 b.2)
    ∧ (a.1 < b.1 ∧ b.2 < a.2 → Util.overlap a b = (true, some b))
    ∧ (b.1 < a.1 ∧ a.2 < b.2 → Util.overlap a b = (true, some a))
    ∧ (a.1 = b.1 → b.2 ≤ a.2 → Util.overlap a b = (true, some b))
    ∧ (max a.1 b.1 ≤ min a.2 b.2 →
        (Util.overlap a b).2 = some (max a.1 b.1, min a.2 b.2))
    ∧ (min a.2 b.2 < max a.1 b.1 → Util.overlap a b = (false, none)) := by
  rw [overlap_eq a b ha hb]
  obtain ⟨a1, a2⟩ := a
  obtain ⟨b1, b2⟩ := b
  simp only at ha hb
  refine ⟨?_, ?_, ?_, ?_, ?_, ?_⟩ <;>
    · split_ifs with h <;> simp_all [Prod.ext_iff] <;> omega

/-- Witness for C2: `(0, 5)` strictly contains `(2, 3)`, and the overlap
is the contained interval. -/
theorem C2_overlap_witness :
    Util.overlap (0, 5) (2, 3) = (true, some (2, 3)) ∧ (0 : Int) < 2 ∧ (3 : Int) < 5 :=
  ⟨(C2_overlap (0, 5) (2, 3) (by decide) (by decide)).2.1
      ⟨by decide, by decide⟩,
    by decide, by decide⟩

/-- C3: for a colliding pair whose first line is horizontal (and not
degenerate-vertical) and whose second line is vertical, with both
collision intervals collapsed to the single point `(px, py)`,
`Line.resolve_collision` classifies the point against the horizontal
line's and the vertical line's endpoints exactly as the spec's ordered
junction table (`specResolveJunction`) prescribes; in particular the
spec's three concrete examples resolve to the top-left corner, the
bottom-left corner, and the full cross. -/
theorem C3_resolve_collision (a b : Line) (px py : Int)
    (hah : a.horizontal = true) (hav : a.vertical = false)
    (_hbv : b.vertical = true) :
    (Line.resolve_collision ((a, b), ((px, px), (py, py)))
        = (⟨px, py⟩, specResolveJunction a b ⟨px, py⟩))
    ∧ (Line.collision ⟨⟨0, 0⟩, ⟨10, 0⟩⟩ ⟨⟨0, 0⟩, ⟨0, 5⟩⟩
          = (true, some ((0, 0), (0, 0)))
      ∧ Line.resolve_collision
            ((⟨⟨0, 0⟩, ⟨10, 0⟩⟩, ⟨⟨0, 0⟩, ⟨0, 5⟩⟩), ((0, 0), (0, 0)))
          = (⟨0, 0⟩, Line.UNICODE_TL))
    ∧ (Line.collision ⟨⟨0, 0⟩, ⟨10, 0⟩⟩ ⟨⟨0, -5⟩, ⟨0, 0⟩⟩
          = (true, some ((0, 0), (0, 0)))
      ∧ Line.resolve_collision
            ((⟨⟨0, 0⟩, ⟨10, 0⟩⟩, ⟨⟨0, -5⟩, ⟨0, 0⟩⟩), ((0, 0), (0, 0)))
          = (⟨0, 0⟩, Line.UNICODE_BL))
    ∧ (Line.collision ⟨⟨0, 0⟩, ⟨10, 0⟩⟩ ⟨⟨5, -3⟩, ⟨5, 3⟩⟩
          = (true, some ((5, 5), (0, 0)))
      ∧ Line.resolve_collision
            ((⟨⟨0, 0⟩, ⟨10, 0⟩⟩, ⟨⟨5, -3⟩, ⟨5, 3⟩⟩), ((5, 5), (0, 0)))
          = (⟨5, 0⟩, Line.UNICODE_X)) := by
  refine ⟨?_, by decide, by decide, by decide⟩
  simp [Line.resolve_collision, specResolveJunction, hah, hav]

/-- Witness for C3: the horizontal line (0,0)-(10,0) against the
vertical line (0,0)-(0,5) at their shared start. -/
theorem C3_resolve_collision_witness :
    Line.resolve_collision
        ((⟨⟨0, 0⟩, ⟨10, 0⟩⟩, ⟨⟨0, 0⟩, ⟨0, 5⟩⟩), ((0, 0), (0, 0)))
      = (⟨0, 0⟩,
          specResolveJunction ⟨⟨0, 0⟩, ⟨10, 0⟩⟩ ⟨⟨0, 0⟩, ⟨0, 5⟩⟩ ⟨0, 0⟩) :=
  (C3_resolve_collision ⟨⟨0, 0⟩, ⟨10, 0⟩⟩ ⟨⟨0, 0⟩, ⟨0, 5⟩⟩ 0 0
    (by decide) (by decide) (by decide)).1

/-- `Line.parallel` is symmetric. -/
lemma parallel_symm (a b : Line) : Line.parallel a b = Line.parallel b a := by
  unfold Line.parallel
  by_cases h : Line.orientation a = Line.orientation b
  · simp [h]
  · simp [h, Ne.symm h]

/-- Folding preserves a property of the accumulator's elements when each
step does. -/
lemma foldl_forall_of_step {α β : Type} (P : α → Prop) (f : List α → β → List α)
    (hf : ∀ acc x, (∀ e ∈ acc, P e) → ∀ y ∈ f acc x, P y) :
    ∀ (l : List β) (acc : List α), (∀ e ∈ acc, P e) →
      ∀ y ∈ l.foldl f acc, P y := by
  intro l
  induction l with
  | nil => intro acc h y hy; exact h y hy
  | cons x t ih => intro acc h y hy; exact ih (f acc x) (hf acc x h) y hy

/-- Every pair recorded by `Line.collisions` is non-parallel: the guard
skips parallel pairs before any entry is added. -/
lemma collisions_not_parallel (lines : List Line) :
    ∀ e ∈ Line.collisions lines, Line.parallel e.1.1 e.1.2 = false := by
  unfold Line.collisions
  refine foldl_forall_of_step _ _ ?_ lines [] (by simp)
  intro acc a hacc y hy
  refine foldl_forall_of_step _ _ ?_ lines acc hacc y hy
  intro acc2 b hacc2 z hz
  by_cases hc : a = b ∨ Line.parallel a b = true ∨ (b, a) ∈ acc2.map Prod.fst
  · rw [if_pos hc] at hz
    exact hacc2 z hz
  · rw [if_neg hc] at hz
    push_neg at hc
    obtain ⟨-, hpar, -⟩ := hc
    have hpar' : Line.parallel a b = false := by
      cases h : Line.parallel a b
      · rfl
      · exact absurd h hpar
    rcases hcol : Line.collision a b with ⟨fl, seg⟩
    rw [hcol] at hz
    cases fl with
    | false => cases seg with
      | none => exact hacc2 z hz
      | some s => exact hacc2 z hz
    | true => cases seg with
      | none => exact hacc2 z hz
      | some s =>
          have hz' : z ∈ acc2 ++ [((a, b), s)] := hz
          rcases List.mem_append.mp hz' with h | h
          · exact hacc2 z h
          · have hzz : z = ((a, b), s) := by simpa using h
            rw [hzz]
            exact hpar'

/-- C6: for every list of lines and every parallel pair `a`, `b` (same
orientation, even collinear and overlapping), the mapping returned by
`Line.collisions` contains neither the key `(a, b)` nor `(b, a)`. -/
theorem C6_parallel_excluded (lines : List Line) (a b : Line)
    (hpar : Line.parallel a b = true) :
    ((Line.collisions lines).all
      (fun e => decide (e.1 ≠ (a, b) ∧ e.1 ≠ (b, a)))) = true := by
  rw [List.all_eq_true]
  intro e he
  have hnp := collisions_not_parallel lines e he
  rw [decide_eq_true_eq]
  constructor
  · intro h
    rw [h] at hnp
    simp only at hnp
    rw [hnp] at hpar
    exact Bool.false_ne_true hpar
  · intro h
    rw [h] at hnp
    simp only at hnp
    rw [parallel_symm] at hpar
    rw [hnp] at hpar
    exact Bool.false_ne_true hpar

/-- Witness for C6: two collinear, overlapping horizontal segments
produce no collision entry in either order. -/
theorem C6_parallel_excluded_witness :
    Line.parallel ⟨⟨0, 0⟩, ⟨5, 0⟩⟩ ⟨⟨0, 0⟩, ⟨3, 0⟩⟩ = true
    ∧ ((Line.collisions
          [(⟨⟨0, 0⟩, ⟨5, 0⟩⟩ : Line), (⟨⟨0, 0⟩, ⟨3, 0⟩⟩ : Line)]).all
        (fun e => decide (e.1 ≠ ((⟨⟨0, 0⟩, ⟨5, 0⟩⟩ : Line), (⟨⟨0, 0⟩, ⟨3, 0⟩⟩ : Line))
          ∧ e.1 ≠ ((⟨⟨0, 0⟩, ⟨3, 0⟩⟩ : Line), (⟨⟨0, 0⟩, ⟨5, 0⟩⟩ : Line))))) = true :=
  ⟨by decide, C6_parallel_excluded _ _ _ (by decide)⟩

/-- Association-list lookup over an append: the earlier bindings win. -/
lemma lookup_append (l l2 : List (Nat × Nat)) (k : Nat) :
    (l ++ l2).lookup k =
      match l.lookup k with
      | some v => some v
      | none => l2.lookup k := by
  induction l with
  | nil => simp [List.lookup]
  | cons p t ih =>
      obtain ⟨k', v⟩ := p
      by_cases h : k = k'
      · simp [List.lookup, h]
      · have hb : (k == k') = false := beq_eq_false_iff_ne.mpr h
        simp [List.lookup, hb, ih]

/-- A `LayoutCell.state` call never disturbs an existing binding. -/
lemma state_preserves_binding (c : CellStates) (w v s : Nat)
    (h : c.states.lookup v = some s) :
    ((LayoutCell.state c w).2.1).states.lookup v = some s := by
  unfold LayoutCell.state
  cases hw : c.states.lookup w with
  | none => simp [lookup_append, h]
  | some t => simpa using h

/-- Once a view is bound to a state, every later request for it returns
that state and never calls `init_state` again. -/
lemma runStates_bound (v s : Nat) :
    ∀ (reqs : List Nat) (c : CellStates), c.states.lookup v = some s →
      ∀ t ∈ LayoutCell.runStates c reqs, t.1 = v →
        t.2.1 = s ∧ t.2.2 = false := by
  intro reqs
  induction reqs with
  | nil => intro c h t ht; simp [LayoutCell.runStates] at ht
  | cons w rest ih =>
      intro c h t ht hv
      cases hw : c.states.lookup w with
      | some u =>
          have hstate : LayoutCell.state c w = (u, c, false) := by
            simp [LayoutCell.state, hw]
          rw [LayoutCell.runStates, hstate] at ht
          rcases List.mem_cons.mp ht with hh | hh
          · rw [hh] at hv ⊢
            simp only at hv
            subst hv
            rw [h] at hw
            injection hw with hw2
            exact ⟨hw2.symm, rfl⟩
          · exact ih c h t hh hv
      | none =>
          have hstate : LayoutCell.state c w
              = (c.fresh, ⟨c.states ++ [(w, c.fresh)], c.fresh + 1⟩, true) := by
            simp [LayoutCell.state, hw]
          rw [LayoutCell.runStates, hstate] at ht
          rcases List.mem_cons.mp ht with hh | hh
          · rw [hh] at hv
            simp only at hv
            subst hv
            rw [h] at hw
            cases hw
          · have h' : (⟨c.states ++ [(w, c.fresh)], c.fresh + 1⟩ :
                CellStates).states.lookup v = some s := by
              simp [lookup_append, h]
            exact ih _ h' t hh hv

/-- From an unbound view, the filtered request trace is empty or begins
with the single initializing request, every later one replaying the same
state without initializing. -/
lemma runStates_unbound (v : Nat) :
    ∀ (reqs : List Nat) (c : CellStates), c.states.lookup v = none →
      ((LayoutCell.runStates c reqs).filter (fun t => t.1 == v) = [])
      ∨ ∃ s rest,
          (LayoutCell.runStates c reqs).filter (fun t => t.1 == v)
            = (v, s, true) :: rest
          ∧ ∀ u ∈ rest, u = (v, s, false) := by
  intro reqs
  induction reqs with
  | nil => intro c h; left; simp [LayoutCell.runStates]
  | cons w rest ih =>
      intro c h
      cases hw : c.states.lookup w with
      | some u =>
          have hwv : (w == v) = false := by
            refine beq_eq_false_iff_ne.mpr ?_
            intro e
            rw [e, h] at hw
            cases hw
          have hstate : LayoutCell.state c w = (u, c, false) := by
            simp [LayoutCell.state, hw]
          rw [LayoutCell.runStates, hstate]
          rw [List.filter_cons]
          simp only [hwv, if_neg, Bool.false_eq_true, not_false_iff]
          exact ih c h
      | none =>
          have hstate : LayoutCell.state c w
              = (c.fresh, ⟨c.states ++ [(w, c.fresh)], c.fresh + 1⟩, true) := by
            simp [LayoutCell.state, hw]
          by_cases hwv : w = v
          · subst hwv
            right
            have hbound : (⟨c.states ++ [(w, c.fresh)], c.fresh + 1⟩ :
                CellStates).states.lookup w = some c.fresh := by
              simp [lookup_append, h]
            refine ⟨c.fresh,
              (LayoutCell.runStates
                  (⟨c.states ++ [(w, c.fresh)], c.fresh + 1⟩ : CellStates)
                  rest).filter (fun t => t.1 == w), ?_, ?_⟩
            · rw [LayoutCell.runStates, hstate, List.filter_cons]
              simp
            · intro u hu
              have hmem := List.mem_filter.mp hu
              have hv1 : u.1 = w := by simpa using hmem.2
              have hb := runStates_bound w c.fresh rest _ hbound u hmem.1 hv1
              obtain ⟨u1, u2, u3⟩ := u
              simp only at hv1 hb
              simp [hv1, hb.1, hb.2]
          · have hwv' : (w == v) = false := beq_eq_false_iff_ne.mpr hwv
            have hvw : (v == w) = false := beq_eq_false_iff_ne.mpr (Ne.symm hwv)
            have h' : (⟨c.states ++ [(w, c.fresh)], c.fresh + 1⟩ :
                CellStates).states.lookup v = none := by
              simp [lookup_append, h, List.lookup, hvw]
            rw [LayoutCell.runStates, hstate, List.filter_cons]
            simp only [hwv', Bool.false_eq_true, if_neg, not_false_iff]
            exact ih _ h'

/-- C8: from a freshly constructed cell, for every sequence of state
requests and every view, the filtered trace for that view is empty or
consists of one initializing request followed only by non-initializing
requests returning the very same state; in particular `init_state` runs
at most once per (cell, view) pair. -/
theorem C8_state_cached (reqs : List Nat) (v : Nat) :
    (((LayoutCell.runStates CellStates.init reqs).filter
          (fun t => t.1 == v) = [])
      ∨ ∃ s rest,
          (LayoutCell.runStates CellStates.init reqs).filter
              (fun t => t.1 == v)
            = (v, s, true) :: rest
          ∧ ∀ u ∈ rest, u = (v, s, false))
    ∧ ((LayoutCell.runStates CellStates.init reqs).filter
          (fun t => t.1 == v)).countP (fun t => t.2.2) ≤ 1 := by
  have h := runStates_unbound v reqs CellStates.init rfl
  refine ⟨h, ?_⟩
  rcases h with h | ⟨s, rest, heq, hall⟩
  · rw [h]
    simp
  · rw [heq, List.countP_cons]
    have hz : rest.countP (fun t => t.2.2) = 0 := by
      refine List.countP_eq_zero.mpr ?_
      intro u hu
      rw [hall u hu]
      simp
    simp [hz]

/-- C9 fails as stated: `LayoutNode.border_lines` subtracts 1 from the
width and height, so at width 0 the top border line runs from (0, 0) to
(-1, 0) — still axis-aligned, but with endpoints out of order. -/
theorem C9_counterexample :
    (Line.mk ⟨0, 0⟩ ⟨-1, 0⟩) ∈ LayoutNode.border_lines 0 2
    ∧ ¬ ((Line.mk ⟨0, 0⟩ ⟨-1, 0⟩).p.x ≤ (Line.mk ⟨0, 0⟩ ⟨-1, 0⟩).q.x) := by
  decide

/-- C9 amended: every line produced by `Rect.border` on a normalized
rect, and by `LayoutNode.border_lines` for a node of width and height at
least 1, is axis-aligned (horizontal or vertical, never angled) and has
ordered endpoints, `line.p ≤ line.q` componentwise; degenerate extents
below 1 still give axis-aligned lines but can reverse the endpoints. -/
theorem C9_border_lines_aligned (r : Rect) (w h : Int)
    (hr : r.p.x ≤ r.q.x ∧ r.p.y ≤ r.q.y) (hw : 1 ≤ w) (hh : 1 ≤ h) :
    (∀ l ∈ r.border,
      (l.horizontal = true ∨ l.vertical = true)
      ∧ l.p.x ≤ l.q.x ∧ l.p.y ≤ l.q.y)
    ∧ (∀ l ∈ LayoutNode.border_lines w h,
      (l.horizontal = true ∨ l.vertical = true)
      ∧ l.p.x ≤ l.q.x ∧ l.p.y ≤ l.q.y) := by
  obtain ⟨hx, hy⟩ := hr
  constructor
  · intro l hl
    simp only [Rect.border, List.mem_cons, List.mem_singleton,
      List.not_mem_nil, or_false] at hl
    rcases hl with h1 | h1 | h1 | h1 <;> subst h1 <;>
      refine ⟨?_, ?_, ?_⟩ <;> simp [Line.horizontal, Line.vertical] <;> omega
  · intro l hl
    simp only [LayoutNode.border_lines, List.mem_cons, List.mem_singleton,
      List.not_mem_nil, or_false] at hl
    rcases hl with h1 | h1 | h1 | h1 <;> subst h1 <;>
      refine ⟨?_, ?_, ?_⟩ <;> simp [Line.horizontal, Line.vertical] <;> omega

/-- Witness for C9's amended statement: the top border line of the rect
built from the reversed corners (3, 4) and (1, 2). -/
theorem C9_border_lines_aligned_witness :
    ((Line.mk ⟨1, 2⟩ ⟨3, 2⟩).horizontal = true
        ∨ (Line.mk ⟨1, 2⟩ ⟨3, 2⟩).vertical = true)
    ∧ (Line.mk ⟨1, 2⟩ ⟨3, 2⟩).p.x ≤ (Line.mk ⟨1, 2⟩ ⟨3, 2⟩).q.x
    ∧ (Line.mk ⟨1, 2⟩ ⟨3, 2⟩).p.y ≤ (Line.mk ⟨1, 2⟩ ⟨3, 2⟩).q.y :=
  (C9_border_lines_aligned (Rect.init ⟨3, 4⟩ ⟨1, 2⟩) 5 2
      ⟨by decide, by decide⟩ (by decide) (by decide)).1
    (Line.mk ⟨1, 2⟩ ⟨3, 2⟩) (by decide)

end Cursed
